import Mathlib

/-!
Shallow embedding of the raffle bot (`src/bot.py`): the in-memory cache
(`user_links`, `user_stats`, `raffles`, `already_picked`, `always_pick`),
the durable store (PostgreSQL tables created in `db_init`), the `pick`
winner-selection command, the `register`/`unregister`/`reset_picks`
commands, the `archive_watcher` background tick, and `load_state_from_db`.

Modelling conventions:
- Python dicts / SQL tables keyed by a primary key become association
  lists (`List (key × value)`) in insertion order; Python sets and
  single-column tables become lists used as sets (insert-if-absent).
- User ids are `Nat`, raffle names are `String`, SQL INTEGER counters are
  `Int` (the stat deltas in the source are Python ints), timestamps are
  `Nat` ticks.
- Randomness (`random.sample`, `random.shuffle`) is passed in as function
  parameters; theorems assume only the properties the Python library
  guarantees (sample size / sample membership / shuffle permutation).
- Discord role grants (`Member.add_roles`) and transient store failures
  are modelled by Boolean oracles: a `false` answer is an exception being
  raised at that call site, which aborts the surrounding Python loop.
-/

/-- Discord presence states used by the bot (`discord.Status`). -/
inductive Status where
  | online
  | idle
  | dnd
  | offline
deriving DecidableEq, Repr

/-- A row of the `stats` table / a value of the `user_stats` dict:
`{"registrations": int, "wins": int}`. -/
structure Stat where
  registrations : Int
  wins : Int
deriving DecidableEq, Repr

/-- The in-memory globals of `bot.py` (section "Storage"). -/
structure Cache where
  user_links : List (Nat × String)
  user_stats : List (Nat × Stat)
  raffles : List (String × List Nat)
  already_picked : List Nat
  always_pick : List Nat
deriving DecidableEq, Repr

/-- The durable store: the tables created by `db_init`.  `raffles` keeps
the `archived` flag as a `Bool` (`0`/`1` in SQL); `raffle_winners` rows
are `(raffle_name, user_id)` pairs (the `picked_at` timestamp plays no
role in any claim); `archive_schedule` rows are `(raffle_name,
archive_at)`. -/
structure Store where
  users : List (Nat × String)
  stats : List (Nat × Stat)
  always_pick : List Nat
  raffles : List (String × Bool)
  raffle_winners : List (String × Nat)
  picks_state : List Nat
  archive_schedule : List (String × Nat)
  blacklist : List Nat
deriving DecidableEq, Repr

/-- Whole program state: cache plus durable store. -/
structure State where
  cache : Cache
  db : Store
deriving DecidableEq, Repr

/-- The empty state: fresh tables, empty globals. -/
def initState : State :=
  { cache := { user_links := [], user_stats := [], raffles := [],
               already_picked := [], always_pick := [] },
    db := { users := [], stats := [], always_pick := [], raffles := [],
            raffle_winners := [], picks_state := [], archive_schedule := [],
            blacklist := [] } }

/-- Upsert into an association list: replace the first binding of the key
in place, or append a new binding (SQL `ON CONFLICT ... DO UPDATE`, and a
Python dict assignment). -/
def upsertA {α β : Type} [BEq α] (k : α) (v : β) : List (α × β) → List (α × β)
  | [] => [(k, v)]
  | (k', v') :: t => if k' == k then (k, v) :: t else (k', v') :: upsertA k v t

/-- Insert a binding only when the key is absent (SQL
`ON CONFLICT DO NOTHING`, and Python `dict.setdefault`). -/
def insertIfAbsent {α β : Type} [BEq α] (k : α) (v : β) (l : List (α × β)) :
    List (α × β) :=
  if (l.lookup k).isSome then l else l ++ [(k, v)]

/-- Add an element to a list used as a set (Python `set.add`, SQL insert
with `ON CONFLICT DO NOTHING` on a single-column table). -/
def insertSet {α : Type} [BEq α] (x : α) (l : List α) : List α :=
  if l.contains x then l else l ++ [x]

/-- Remove an element from a list used as a set (Python `set.discard`,
SQL `DELETE ... WHERE`). -/
def removeSet {α : Type} [BEq α] (x : α) (l : List α) : List α :=
  l.filter (fun y => !(y == x))

/-- Update the value stored at a key, leaving other bindings alone
(SQL `UPDATE ... WHERE key = k`). -/
def updateA {α β : Type} [BEq α] (k : α) (f : β → β) (l : List (α × β)) :
    List (α × β) :=
  l.map (fun e => if e.1 == k then (e.1, f e.2) else e)

/-- `db_upsert_user(user_id, link)`: upsert the `users` row (overwriting
`x_link` with the given link, `""` by default at every call site that
omits it) and insert a zeroed `stats` row when none exists. -/
def db_upsert_user (uid : Nat) (link : String) (db : Store) : Store :=
  { db with users := upsertA uid link db.users,
            stats := insertIfAbsent uid ⟨0, 0⟩ db.stats }

/-- `db_update_stat(user_id, delta_reg, delta_wins)`: first calls
`db_upsert_user(user_id)` (with the default empty link), then upserts the
`stats` row, adding the deltas on conflict and inserting
`(max delta 0, max delta 0)` otherwise. -/
def db_update_stat (uid : Nat) (dreg dwins : Int) (db : Store) : Store :=
  let db1 := db_upsert_user uid "" db
  { db1 with stats :=
      if (db1.stats.lookup uid).isSome then
        updateA uid (fun st => ⟨st.registrations + dreg, st.wins + dwins⟩) db1.stats
      else
        db1.stats ++ [(uid, ⟨max dreg 0, max dwins 0⟩)] }

/-- `db_set_picked(user_id, add=True)`: insert into `picks_state`. -/
def db_set_picked (uid : Nat) (db : Store) : Store :=
  { db with picks_state := insertSet uid db.picks_state }

/-- `db_reset_picks()`: `DELETE FROM picks_state`. -/
def db_reset_picks (db : Store) : Store :=
  { db with picks_state := [] }

/-- `db_create_raffle(raffle_name)`: insert `(name, archived=0)` with
`ON CONFLICT DO NOTHING` — a no-op whenever a row with that name exists,
archived or not. -/
def db_create_raffle (name : String) (db : Store) : Store :=
  { db with raffles := insertIfAbsent name false db.raffles }

/-- `db_add_winner(raffle_name, user_id)`: insert the `(name, user)` row
with `ON CONFLICT DO NOTHING` on the `(raffle_name, user_id)` key. -/
def db_add_winner (name : String) (uid : Nat) (db : Store) : Store :=
  { db with raffle_winners :=
      if (name, uid) ∈ db.raffle_winners then db.raffle_winners
      else db.raffle_winners ++ [(name, uid)] }

/-- `db_archive_raffle(raffle_name)`: one transaction setting
`archived = 1` on the raffle row and deleting the schedule row. -/
def db_archive_raffle (name : String) (db : Store) : Store :=
  { db with raffles := updateA name (fun _ => true) db.raffles,
            archive_schedule :=
              db.archive_schedule.filter (fun e => !(e.1 == name)) }

/-- `db_schedule_archive(raffle_name, when)`: upsert the schedule row. -/
def db_schedule_archive (name : String) (when : Nat) (db : Store) : Store :=
  { db with archive_schedule := upsertA name when db.archive_schedule }

/-- `db_get_due_archives(now)`: names of schedule rows with
`archive_at <= now`, in table order. -/
def db_get_due_archives (now : Nat) (db : Store) : List String :=
  (db.archive_schedule.filter (fun e => e.2 ≤ now)).map Prod.fst

/-- `is_blacklisted(user_id)`. -/
def is_blacklisted (uid : Nat) (db : Store) : Bool :=
  db.blacklist.contains uid

/-- `load_state_from_db()`: rebuild the cache from the store —
`user_links` from `users`, `user_stats` from `stats`, `always_pick`,
active raffles (archived = 0) with their winners joined in, and
`already_picked` from `picks_state`. -/
def load_state_from_db (db : Store) : Cache :=
  let raffles0 : List (String × List Nat) :=
    ((db.raffles.filter (fun e => e.2 == false)).map Prod.fst).map
      (fun n => (n, []))
  let joined := db.raffle_winners.filter
    (fun e => db.raffles.lookup e.1 == some false)
  let rafflesC := joined.foldl
    (fun acc e =>
      if (acc.lookup e.1).isSome then updateA e.1 (fun l => l ++ [e.2]) acc
      else acc ++ [(e.1, [e.2])])
    raffles0
  { user_links := db.users,
    user_stats := db.stats,
    raffles := rafflesC,
    already_picked := db.picks_state,
    always_pick := db.always_pick }

/-- A Discord guild, reduced to what `pick` consults: which user ids
`guild.get_member` resolves (the keys) and each member's presence. -/
def Guild : Type := List (Nat × Status)

/-- `priority_winners` in `pick`: always-pick members that resolve to a
guild member, are not already picked, and are not blacklisted (no
presence requirement). -/
def priorityWinners (g : Guild) (s : State) : List Nat :=
  s.cache.always_pick.filter (fun uid =>
    (g.lookup uid).isSome
    && !(s.cache.already_picked.contains uid)
    && !(is_blacklisted uid s.db))

/-- `eligible` in `pick`: registered users (keys of `user_links`) that
resolve to a guild member, are not already picked, are online, are not in
the always-pick set, and are not blacklisted. -/
def eligiblePool (g : Guild) (s : State) : List Nat :=
  (s.cache.user_links.map Prod.fst).filter (fun uid =>
    (g.lookup uid).isSome
    && !(s.cache.already_picked.contains uid)
    && (g.lookup uid == some Status.online)
    && !(s.cache.always_pick.contains uid)
    && !(is_blacklisted uid s.db))

/-- The winner list `pick` builds before shuffling: all priority winners,
then — when the decremented count is still positive and the pool is
non-empty — `sample eligible (min number len(eligible))`. -/
def computeWinners (g : Guild) (n : Int)
    (sample : List Nat → Nat → List Nat) (s : State) : List Nat :=
  let priority := priorityWinners g s
  let eligible := eligiblePool g s
  let number := if priority ≠ [] then n - priority.length else n
  if 0 < number ∧ eligible ≠ [] then
    priority ++ sample eligible (min number.toNat eligible.length)
  else priority

/-- The body of `pick`'s per-winner loop up to the role grant:
`already_picked.add`, append to the cached raffle winner list,
`db_add_winner`, `db_set_picked`, `db_update_stat(delta_wins=1)`, and the
`user_stats` setdefault-and-increment. -/
def persistWinner (raffle : String) (w : Nat) (s : State) : State :=
  let c := s.cache
  let c1 := { c with
    already_picked := insertSet w c.already_picked,
    raffles := updateA raffle (fun l => l ++ [w]) c.raffles,
    user_stats :=
      updateA w (fun st => ⟨st.registrations, st.wins + 1⟩)
        (insertIfAbsent w ⟨0, 0⟩ c.user_stats) }
  let db1 := db_update_stat w 0 1 (db_set_picked w (db_add_winner raffle w s.db))
  { cache := c1, db := db1 }

/-- Result of a `pick` call: the no-eligible-users early return, full
success announcing the winner table, or an escaped role-grant exception
(`Member.add_roles` raising), which aborts the loop after the failing
winner was persisted. -/
inductive PickResult where
  | noEligible
  | ok (winners : List Nat)
  | grantFailed (processed : List Nat)
deriving DecidableEq, Repr

/-- `pick`'s winner loop: persist each winner in order, then attempt the
role grant; a failed grant is an exception that ends the loop (and the
command) right there.  Returns the state, the processed winners, and
whether the loop ran to completion. -/
def pickLoop (raffle : String) (grant : Nat → Bool) :
    List Nat → State → State × List Nat × Bool
  | [], s => (s, [], true)
  | w :: rest, s =>
    let s1 := persistWinner raffle w s
    if grant w then
      let r := pickLoop raffle grant rest s1
      (r.1, w :: r.2.1, r.2.2)
    else (s1, [w], false)

/-- The `pick` command (admin path, after the message-delete try/except):
compute the winner list; when it is empty, send the warning and return
with nothing mutated; otherwise shuffle it, `raffles.setdefault`,
`db_create_raffle`, and run the per-winner loop. -/
def pick (g : Guild) (raffle : String) (n : Int)
    (sample : List Nat → Nat → List Nat) (shuffle : List Nat → List Nat)
    (grant : Nat → Bool) (s : State) : State × PickResult :=
  let winners0 := computeWinners g n sample s
  if winners0 = [] then (s, .noEligible)
  else
    let winners := shuffle winners0
    let c1 := { s.cache with
      raffles := insertIfAbsent raffle [] s.cache.raffles }
    let db1 := db_create_raffle raffle s.db
    let r := pickLoop raffle grant winners { cache := c1, db := db1 }
    (r.1, if r.2.2 then .ok winners else .grantFailed r.2.1)

/-- The character class `[A-Za-z0-9_]` of the registration regex. -/
def isHandleChar (c : Char) : Bool :=
  c.isAlphanum || c == '_'

/-- Character-list prefix test (used to evaluate the anchored regex). -/
def hasPrefixChars : List Char → List Char → Bool
  | [], _ => true
  | _ :: _, [] => false
  | c :: cs, d :: ds => c == d && hasPrefixChars cs ds

/-- The `register` regex
`^https:\/\/(x\.com|twitter\.com)\/[A-Za-z0-9_]+$`: one of the two hosts
followed by a non-empty handle drawn from `[A-Za-z0-9_]`. -/
def matchesLinkPattern (link : String) : Bool :=
  (hasPrefixChars "https://x.com/".data link.data
    && !(link.data.drop 14).isEmpty && (link.data.drop 14).all isHandleChar)
  || (hasPrefixChars "https://twitter.com/".data link.data
    && !(link.data.drop 20).isEmpty && (link.data.drop 20).all isHandleChar)

/-- The `register` command: reject a missing link, a link not matching
the pattern, an author already in `user_links`, and a blacklisted author
— all before any mutation; otherwise store the link in cache and store,
and bump the registration counters. -/
def register (uid : Nat) (link : String) (s : State) : State :=
  if link = "" then s
  else if !(matchesLinkPattern link) then s
  else if (s.cache.user_links.lookup uid).isSome then s
  else if is_blacklisted uid s.db then s
  else
    let c1 := { s.cache with user_links := upsertA uid link s.cache.user_links }
    let db1 := db_upsert_user uid link s.db
    let c2 := { c1 with
      user_stats :=
        updateA uid (fun st => ⟨st.registrations + 1, st.wins⟩)
          (insertIfAbsent uid ⟨0, 0⟩ c1.user_stats) }
    { cache := c2, db := db_update_stat uid 1 0 db1 }

/-- The `unregister` command (self or admin path): when the `users` row
exists, pop the target from every cache structure and delete the target's
rows from `users`, `stats`, `always_pick`, `raffle_winners`, and
`picks_state`. -/
def unregister (uid : Nat) (s : State) : State :=
  if (s.db.users.lookup uid).isSome then
    { cache := { s.cache with
        user_links := s.cache.user_links.filter (fun e => !(e.1 == uid)),
        already_picked := removeSet uid s.cache.already_picked,
        always_pick := removeSet uid s.cache.always_pick,
        user_stats := s.cache.user_stats.filter (fun e => !(e.1 == uid)) },
      db := { s.db with
        users := s.db.users.filter (fun e => !(e.1 == uid)),
        stats := s.db.stats.filter (fun e => !(e.1 == uid)),
        always_pick := removeSet uid s.db.always_pick,
        raffle_winners := s.db.raffle_winners.filter (fun e => !(e.2 == uid)),
        picks_state := removeSet uid s.db.picks_state } }
  else s

/-- The `reset_picks` command: clear the cache set and `picks_state`. -/
def reset_picks (s : State) : State :=
  { cache := { s.cache with already_picked := [] },
    db := db_reset_picks s.db }

/-- Evict a raffle from the cache (`raffles.pop(name, None)`). -/
def evictRaffle (name : String) (c : Cache) : Cache :=
  { c with raffles := c.raffles.filter (fun e => !(e.1 == name)) }

/-- The body of `archive_watcher`'s `for name in due` loop, with a
failure oracle for `db_archive_raffle`: a failing store call raises, its
transaction rolls back (no state change), and the exception ends the loop
— the remaining due names are not processed this tick. -/
def archiveLoop (fail : String → Bool) : List String → State → State
  | [], s => s
  | n :: rest, s =>
    if fail n then s
    else archiveLoop fail rest
      { cache := evictRaffle n s.cache, db := db_archive_raffle n s.db }

/-- One `archive_watcher` tick: query the due schedule entries and, when
there are any, run the archive loop over them in order. -/
def archive_watcher_tick (fail : String → Bool) (now : Nat) (s : State) :
    State :=
  let due := db_get_due_archives now s.db
  if due = [] then s else archiveLoop fail due s

/-- An instance of `random.sample` used to instantiate witnesses: take
the first `k` elements (a valid sample: right size, drawn from the
list). -/
def takeSample (l : List Nat) (k : Nat) : List Nat := l.take k

/-- A role-grant oracle under which every `add_roles` call succeeds. -/
def grantAll : Nat → Bool := fun _ => true

/-- Persist a list of winners in order with no grant failure: the
committed prefix of a `pick` loop. -/
def persistAll (raffle : String) (l : List Nat) (s : State) : State :=
  l.foldl (fun s w => persistWinner raffle w s) s

/-- The user-facing operations a trace may interleave: `register`,
`unregister`, a draw (`pick`, with its guild view, randomness and grant
oracle), and `reset_picks`. -/
inductive Op where
  | reg (uid : Nat) (link : String)
  | unreg (uid : Nat)
  | draw (g : Guild) (raffle : String) (n : Int)
      (sample : List Nat → Nat → List Nat) (shuffle : List Nat → List Nat)
      (grant : Nat → Bool)
  | resetPicks

/-- Run one operation. -/
def applyOp (s : State) (op : Op) : State :=
  match op with
  | .reg uid link => register uid link s
  | .unreg uid => unregister uid s
  | .draw g raffle n sample shuffle grant =>
      (pick g raffle n sample shuffle grant s).1
  | .resetPicks => reset_picks s

/-- Run a trace of operations from the fresh-deployment state. -/
def runOps (ops : List Op) : State := ops.foldl applyOp initState

/-- A guild in which users 1 and 2 are members, both offline. -/
def guildOff12 : Guild := [(1, Status.offline), (2, Status.offline)]

/-- A guild in which user 1 is an online member. -/
def guildOn1 : Guild := [(1, Status.online)]

/-- A guild in which users 1 and 2 are online members. -/
def guildOn12 : Guild := [(1, Status.online), (2, Status.online)]

/-- Fresh state with users 1 and 2 on the always-pick list. -/
def stateAlways12 : State :=
  { initState with cache := { initState.cache with always_pick := [1, 2] } }

/-- Fresh state with user 1 on the always-pick list. -/
def stateAlways1 : State :=
  { initState with cache := { initState.cache with always_pick := [1] } }

/-- State after user 1 won raffle "A" from `stateAlways1`. -/
def stateAfterFirstWin : State :=
  (pick guildOn1 "A" 1 takeSample id grantAll stateAlways1).1

/-- `stateAfterFirstWin` after an operator ran `reset_picks`. -/
def stateAfterReset : State := reset_picks stateAfterFirstWin

/-- `stateAfterReset` after user 1 won raffle "A" a second time. -/
def stateAfterSecondWin : State :=
  (pick guildOn1 "A" 1 takeSample id grantAll stateAfterReset).1

/-- State whose store has raffle "A" already archived, with user 1 on
the always-pick list and a cache holding no raffle (consistent with the
store). -/
def stateArchivedA : State :=
  { cache := { initState.cache with always_pick := [1] },
    db := { initState.db with raffles := [("A", true)] } }

/-- A store where registered user 1 (with a stored profile link) has a
winner record for raffle "A". -/
def storeWinA1 : Store :=
  { initState.db with
    users := [(1, "https://x.com/a")],
    stats := [(1, ⟨1, 0⟩)],
    raffles := [("A", false)],
    raffle_winners := [("A", 1)] }

/-- `storeWinA1` together with the cache its startup rebuild yields. -/
def stateWinA1 : State :=
  { cache := load_state_from_db storeWinA1, db := storeWinA1 }

/-- A store with two active raffles "A" and "B" both due for archiving
at time 0. -/
def storeDueAB : Store :=
  { initState.db with
    raffles := [("A", false), ("B", false)],
    archive_schedule := [("A", 0), ("B", 0)] }

/-- `storeDueAB` with its matching cache. -/
def stateDueAB : State :=
  { cache := { initState.cache with raffles := [("A", []), ("B", [])] },
    db := storeDueAB }

/-- A store where registered user 1 has a stored profile link and one
registration. -/
def storeLinkedUser : Store :=
  { initState.db with
    users := [(1, "https://x.com/alice")],
    stats := [(1, ⟨1, 0⟩)] }

/-- State with online registered users 3 and 4, user 3 blacklisted. -/
def stateBlack3 : State :=
  { cache := { initState.cache with
      user_links := [(3, "https://x.com/c"), (4, "https://x.com/d")] },
    db := { initState.db with blacklist := [3] } }

/-- A guild in which users 3 and 4 are online members. -/
def guildOn34 : Guild := [(3, Status.online), (4, Status.online)]

/-- Fresh state where user 2 is registered (online pool) and user 1 is
on the always-pick list. -/
def stateMixed : State :=
  { initState with cache := { initState.cache with
      user_links := [(2, "https://x.com/b")], always_pick := [1] } }

/-- The cache/store raffle consistency property of C4: a raffle name is
a key of the cached `raffles` dict iff the store holds a row for it with
the archived flag clear. -/
def CacheStoreRaffleInv (s : State) : Prop :=
  ∀ name : String,
    (s.cache.raffles.lookup name).isSome ↔ s.db.raffles.lookup name = some false

/-- Strengthened registration-counter invariant used for C10: every
stats row (durable or cached) carries 0 or 1 registrations, and a row
with 1 belongs to a user currently registered in `user_links`. -/
def RegBound (s : State) : Prop :=
  (∀ u st, s.db.stats.lookup u = some st →
      (st.registrations = 0 ∨ st.registrations = 1)
      ∧ (st.registrations = 1 → (s.cache.user_links.lookup u).isSome))
  ∧ (∀ u st, s.cache.user_stats.lookup u = some st →
      (st.registrations = 0 ∨ st.registrations = 1)
      ∧ (st.registrations = 1 → (s.cache.user_links.lookup u).isSome))

/-! ### Association-list lemmas -/

theorem lookup_cons {α β : Type} [BEq α] [LawfulBEq α] [DecidableEq α]
    (x : α) (y : β) (k : α) (l : List (α × β)) :
    ((x, y) :: l).lookup k = if k = x then some y else l.lookup k := by
  by_cases h : k = x
  · subst h
    rw [List.lookup]
    simp
  · rw [List.lookup]
    have hb : (k == x) = false := beq_eq_false_iff_ne.mpr h
    simp [hb, h]

theorem lookup_append_left {α β : Type} [BEq α] [LawfulBEq α] [DecidableEq α]
    {k : α} {v : β} {l₁ : List (α × β)} (l₂ : List (α × β))
    (h : l₁.lookup k = some v) : (l₁ ++ l₂).lookup k = some v := by
  induction l₁ with
  | nil => simp [List.lookup] at h
  | cons a t ih =>
    rcases a with ⟨x, y⟩
    rw [lookup_cons] at h
    rw [List.cons_append, lookup_cons]
    by_cases hkx : k = x
    · simpa [hkx] using h
    · rw [if_neg hkx] at h ⊢
      exact ih h

theorem lookup_append_right {α β : Type} [BEq α] [LawfulBEq α] [DecidableEq α]
    {k : α} {l₁ : List (α × β)} (l₂ : List (α × β))
    (h : l₁.lookup k = none) : (l₁ ++ l₂).lookup k = l₂.lookup k := by
  induction l₁ with
  | nil => simp
  | cons a t ih =>
    rcases a with ⟨x, y⟩
    rw [lookup_cons] at h
    rw [List.cons_append, lookup_cons]
    by_cases hkx : k = x
    · simp [hkx] at h
    · rw [if_neg hkx] at h ⊢
      exact ih h

theorem lookup_upsertA {α β : Type} [BEq α] [LawfulBEq α] [DecidableEq α]
    (k k' : α) (v : β) (l : List (α × β)) :
    (upsertA k v l).lookup k' = if k' = k then some v else l.lookup k' := by
  induction l with
  | nil =>
    rw [upsertA, lookup_cons]
  | cons a t ih =>
    rcases a with ⟨x, y⟩
    rw [upsertA]
    by_cases hxk : x = k
    · subst hxk
      rw [if_pos (by simp)]
      by_cases h : k' = x <;> simp [lookup_cons, h]
    · rw [if_neg (by simpa using hxk)]
      by_cases h1 : k' = x
      · subst h1
        simp [lookup_cons, hxk]
      · simp [lookup_cons, h1, ih]

theorem lookup_insertIfAbsent {α β : Type} [BEq α] [LawfulBEq α] [DecidableEq α]
    (k k' : α) (v : β) (l : List (α × β)) :
    (insertIfAbsent k v l).lookup k'
      = if k' = k then some ((l.lookup k).getD v) else l.lookup k' := by
  rw [insertIfAbsent]
  by_cases hk : (l.lookup k).isSome
  · rw [if_pos hk]
    rcases Option.isSome_iff_exists.mp hk with ⟨w, hw⟩
    by_cases h : k' = k <;> simp [h, hw]
  · rw [if_neg hk]
    have hnone : l.lookup k = none := Option.not_isSome_iff_eq_none.mp hk
    by_cases h : k' = k
    · subst h
      rw [lookup_append_right _ hnone, lookup_cons, if_pos rfl, hnone]
      simp
    · rw [if_neg h]
      cases hl : l.lookup k' with
      | none =>
        rw [lookup_append_right _ hl, lookup_cons, if_neg h]
        simp [List.lookup]
      | some w => rw [lookup_append_left _ hl]

theorem lookup_updateA {α β : Type} [BEq α] [LawfulBEq α] [DecidableEq α]
    (k k' : α) (f : β → β) (l : List (α × β)) :
    (updateA k f l).lookup k'
      = if k' = k then (l.lookup k).map f else l.lookup k' := by
  induction l with
  | nil => by_cases h : k' = k <;> simp [updateA, h, List.lookup]
  | cons a t ih =>
    rcases a with ⟨x, y⟩
    rw [updateA, List.map_cons]
    by_cases hxk : x = k
    · subst hxk
      rw [if_pos (by simp)]
      rw [show ((x, y).1, f (x, y).2) = (x, f y) from rfl, ← updateA]
      by_cases h : k' = x <;> simp [lookup_cons, h, ih]
    · rw [if_neg (by simpa using hxk), ← updateA]
      have hkx : ¬ k = x := fun he => hxk he.symm
      by_cases h1 : k' = x
      · subst h1
        simp [lookup_cons, hxk, hkx]
      · simp [lookup_cons, h1, ih, hkx]

theorem lookup_filterKey {α β : Type} [BEq α] [LawfulBEq α] [DecidableEq α]
    (k k' : α) (l : List (α × β)) :
    ((l.filter (fun e => !(e.1 == k))).lookup k')
      = if k' = k then none else l.lookup k' := by
  induction l with
  | nil => by_cases h : k' = k <;> simp [h, List.lookup]
  | cons a t ih =>
    rcases a with ⟨x, y⟩
    rw [List.filter_cons]
    by_cases hxk : x = k
    · subst hxk
      rw [if_neg (by simp)]
      by_cases h : k' = x
      · subst h
        rw [ih]
        simp
      · simp [lookup_cons, h, ih]
    · rw [if_pos (by simpa using hxk)]
      have hkx : ¬ k = x := fun he => hxk he.symm
      by_cases h1 : k' = x
      · subst h1
        simp [lookup_cons, hxk, hkx]
      · simp [lookup_cons, h1, ih, hkx]

theorem mem_of_lookup_eq_some {α β : Type} [BEq α] [LawfulBEq α] [DecidableEq α]
    {k : α} {v : β} {l : List (α × β)} (h : l.lookup k = some v) :
    (k, v) ∈ l := by
  induction l with
  | nil => simp [List.lookup] at h
  | cons a t ih =>
    rcases a with ⟨x, y⟩
    rw [lookup_cons] at h
    by_cases hkx : k = x
    · subst hkx
      rw [if_pos rfl] at h
      cases h
      exact List.mem_cons_self _ _
    · rw [if_neg hkx] at h
      exact List.mem_cons_of_mem _ (ih h)

theorem lookup_eq_some_of_mem_nodup {α β : Type} [BEq α] [LawfulBEq α] [DecidableEq α]
    {k : α} {v : β} {l : List (α × β)}
    (hn : (l.map Prod.fst).Nodup) (h : (k, v) ∈ l) :
    l.lookup k = some v := by
  induction l with
  | nil => simp at h
  | cons a t ih =>
    rcases a with ⟨x, y⟩
    rw [List.map_cons, List.nodup_cons] at hn
    rw [lookup_cons]
    rcases List.mem_cons.mp h with h1 | h1
    · cases h1
      simp
    · have hkx : k ≠ x := by
        intro he
        subst he
        exact hn.1 (List.mem_map.mpr ⟨(k, v), h1, rfl⟩)
      rw [if_neg hkx]
      exact ih hn.2 h1

theorem lookup_isSome_iff_mem_keys {α β : Type} [BEq α] [LawfulBEq α] [DecidableEq α]
    (k : α) (l : List (α × β)) :
    (l.lookup k).isSome ↔ k ∈ l.map Prod.fst := by
  induction l with
  | nil => simp [List.lookup]
  | cons a t ih =>
    rcases a with ⟨x, y⟩
    rw [lookup_cons, List.map_cons]
    by_cases h : k = x
    · subst h
      simp
    · rw [if_neg h]
      simp [h, ih]


/-! ### C2: an empty draw mutates nothing -/

/-- C2: for every draw whose computed winner set is empty, `pick` reports
the no-eligible-users condition and performs no state mutation at all —
cache and durable store are returned exactly as they were, no raffle row
is created and no winner record is written. -/
theorem pick_empty_no_mutation (g : Guild) (raffle : String) (n : Int)
    (sample : List Nat → Nat → List Nat) (shuffle : List Nat → List Nat)
    (grant : Nat → Bool) (s : State)
    (h : computeWinners g n sample s = []) :
    pick g raffle n sample shuffle grant s = (s, PickResult.noEligible) := by
  simp [pick, h]

theorem pick_empty_no_mutation_witness :
    computeWinners guildOff12 1 takeSample initState = []
    ∧ pick guildOff12 "A" 1 takeSample id grantAll initState
        = (initState, PickResult.noEligible) :=
  ⟨by decide,
   pick_empty_no_mutation guildOff12 "A" 1 takeSample id grantAll initState
     (by decide)⟩

/-! ### C1: size of a successful draw -/

/-- C1 as stated is false: with `N = 1` and two eligible always-pick
members (empty pool), the draw succeeds with two winners, so
`|winners| ≠ min(N, |priority| + |pool|) = 1` and the result exceeds
`N`. -/
theorem pick_size_counterexample :
    (pick guildOff12 "A" 1 takeSample id grantAll stateAlways12).2
        = PickResult.ok [1, 2]
    ∧ (priorityWinners guildOff12 stateAlways12).length = 2
    ∧ (eligiblePool guildOff12 stateAlways12).length = 0
    ∧ ([1, 2].length ≠ min 1 (2 + 0))
    ∧ ¬ ([1, 2].length ≤ 1) := by decide

/-- C1 amended: a successful draw returns
`|priority| + min(max(0, N − |priority|), |pool|)` winners (which equals
`min(N, |priority| + |pool|)` whenever `|priority| ≤ N` but exceeds `N`
when the priority set alone does) and the winner list contains every
priority winner. -/
theorem pick_success_size (g : Guild) (raffle : String) (n : Int)
    (sample : List Nat → Nat → List Nat) (shuffle : List Nat → List Nat)
    (grant : Nat → Bool) (s : State) (ws : List Nat)
    (hsample : ∀ l k, (sample l k).length = min k l.length)
    (hshuffle : ∀ l, (shuffle l).Perm l)
    (hok : (pick g raffle n sample shuffle grant s).2 = PickResult.ok ws) :
    ws.length = (priorityWinners g s).length
      + min (n - (priorityWinners g s).length).toNat (eligiblePool g s).length
    ∧ priorityWinners g s ⊆ ws := by
  have hws : ws = shuffle (computeWinners g n sample s) := by
    simp only [pick] at hok
    split at hok
    · simp at hok
    · simp only at hok
      split at hok
      · cases hok
        rfl
      · simp at hok
  have hperm : ws.Perm (computeWinners g n sample s) := by
    rw [hws]
    exact hshuffle _
  have hlen : ws.length = (computeWinners g n sample s).length :=
    hperm.length_eq
  have hnum : (if priorityWinners g s ≠ [] then
        n - (priorityWinners g s).length else n)
      = n - (priorityWinners g s).length := by
    by_cases hp : priorityWinners g s = [] <;> simp [hp]
  constructor
  · rw [hlen, computeWinners]
    simp only [hnum]
    split
    · rename_i hcond
      rw [List.length_append, hsample]
      congr 1
      rw [Nat.min_assoc, Nat.min_self]
    · rename_i hcond
      rw [not_and_or] at hcond
      rcases hcond with hc | hc
      · have : (n - (priorityWinners g s).length).toNat = 0 :=
          Int.toNat_of_nonpos (by omega)
        simp [this]
      · have : eligiblePool g s = [] := by
          by_contra hne
          exact hc hne
        simp [this]
  · intro x hx
    rw [hperm.mem_iff, computeWinners]
    simp only [hnum]
    split
    · exact List.mem_append_left _ hx
    · exact hx

theorem pick_success_size_witness :
    ([1, 2] : List Nat).length
      = (priorityWinners guildOn12 stateMixed).length
        + min ((2 - (priorityWinners guildOn12 stateMixed).length : Int)).toNat
            (eligiblePool guildOn12 stateMixed).length
    ∧ priorityWinners guildOn12 stateMixed ⊆ [1, 2] :=
  pick_success_size guildOn12 "A" 2 takeSample id grantAll stateMixed [1, 2]
    (fun l k => List.length_take k l)
    (fun l => List.Perm.refl l)
    (by decide)

/-! ### C9: blacklisted users never win -/

/-- C9: a blacklisted user is excluded from the priority set and the
pool alike — even as an always-pick member — so they are in neither the
computed winner set nor the shuffled winner list a draw announces. -/
theorem pick_blacklist_excluded (g : Guild) (n : Int)
    (sample : List Nat → Nat → List Nat) (shuffle : List Nat → List Nat)
    (s : State) (uid : Nat)
    (hb : is_blacklisted uid s.db = true)
    (hsample : ∀ l k, sample l k ⊆ l)
    (hshuffle : ∀ l, (shuffle l).Perm l) :
    uid ∉ computeWinners g n sample s
    ∧ uid ∉ shuffle (computeWinners g n sample s) := by
  have hp : uid ∉ priorityWinners g s := by
    intro hmem
    have h2 := (List.mem_filter.mp hmem).2
    simp [hb] at h2
  have he : uid ∉ eligiblePool g s := by
    intro hmem
    have h2 := (List.mem_filter.mp hmem).2
    simp [hb] at h2
  have happ : ∀ k, uid ∉ priorityWinners g s ++ sample (eligiblePool g s) k := by
    intro k hmem
    rcases List.mem_append.mp hmem with h | h
    · exact hp h
    · exact he (hsample _ _ h)
  have hw : uid ∉ computeWinners g n sample s := by
    intro hmem
    simp only [computeWinners] at hmem
    split at hmem <;> split at hmem <;>
      first
        | exact happ _ hmem
        | exact hp hmem
  exact ⟨hw, fun hmem => hw ((hshuffle _).mem_iff.mp hmem)⟩

theorem pick_blacklist_excluded_witness :
    (3 : Nat) ∉ computeWinners guildOn34 2 takeSample stateBlack3
    ∧ (3 : Nat) ∉ id (computeWinners guildOn34 2 takeSample stateBlack3) :=
  pick_blacklist_excluded guildOn34 2 takeSample id stateBlack3 3
    (by decide)
    (fun l k => List.take_subset k l)
    (fun l => List.Perm.refl l)

/-! ### C3: wins counter vs winner records -/

/-- C3 names a real divergence: after user 1 wins raffle "A", picks are
reset, and user 1 wins raffle "A" again, the stored wins counter is 2
while only one winner record exists (`db_add_winner` is a silent no-op on
conflict, yet the win-stat increment still runs). -/
theorem wins_stat_vs_records_bug :
    (pick guildOn1 "A" 1 takeSample id grantAll stateAlways1).2
        = PickResult.ok [1]
    ∧ (pick guildOn1 "A" 1 takeSample id grantAll stateAfterReset).2
        = PickResult.ok [1]
    ∧ stateAfterSecondWin.db.stats.lookup 1 = some ⟨0, 2⟩
    ∧ (stateAfterSecondWin.db.raffle_winners.filter
        (fun e => e.2 == 1)).length = 1 := by decide

/-! ### C8: stat increments and the stored profile link -/

/-- C8: the stat increment indeed never hits a referential violation
(`db_upsert_user` runs first, in the same logical operation) — but it is
not frame-preserving: for a registered user with a stored profile link,
`db_update_stat` overwrites `users.x_link` with the empty string,
because `db_upsert_user` is called with its default empty link and its
upsert unconditionally sets `x_link`. -/
theorem stat_update_clobbers_link :
    storeLinkedUser.users.lookup 1 = some "https://x.com/alice"
    ∧ (db_update_stat 1 0 1 storeLinkedUser).stats.lookup 1 = some ⟨1, 1⟩
    ∧ (db_update_stat 1 0 1 storeLinkedUser).users.lookup 1 = some "" := by
  decide

/-! ### C4: cache/store raffle consistency, counterexample -/

/-- C4 fails as stated: starting from a consistent state whose store has
raffle "A" archived (and whose cache therefore does not hold "A"), a draw
under the name "A" puts "A" back into the cache while the store row stays
archived — `raffles.setdefault` re-inserts it and `db_create_raffle` is a
no-op on the existing row. -/
theorem archived_name_reenters_cache :
    stateArchivedA.cache.raffles.lookup "A" = none
    ∧ stateArchivedA.db.raffles.lookup "A" = some true
    ∧ (pick guildOff12 "A" 1 takeSample id grantAll
        stateArchivedA).1.cache.raffles.lookup "A" = some [1]
    ∧ (pick guildOff12 "A" 1 takeSample id grantAll
        stateArchivedA).1.db.raffles.lookup "A" = some true := by decide

/-! ### C5: winner-record immutability, counterexample -/

/-- C5 fails as stated: `unregister` deletes the target user's winner
records (`DELETE FROM raffle_winners WHERE user_id = ...`), so a winner
record does not survive every subsequent operation. -/
theorem unregister_deletes_records_cex :
    ("A", 1) ∈ stateWinA1.db.raffle_winners
    ∧ (unregister 1 stateWinA1).db.raffle_winners = [] := by decide

/-! ### C6: archive tick failure isolation, counterexample -/

/-- C6 fails as stated: with raffles "A" and "B" both due, a failure
archiving "A" aborts the tick before "B" is processed — the state is
completely unchanged, with "B" still unarchived and still scheduled. -/
theorem archive_failure_blocks_tick_cex :
    db_get_due_archives 5 stateDueAB.db = ["A", "B"]
    ∧ archive_watcher_tick (fun m => m == "A") 5 stateDueAB = stateDueAB
    ∧ stateDueAB.db.raffles.lookup "B" = some false
    ∧ ("B", 0) ∈ stateDueAB.db.archive_schedule := by decide

/-! ### C7: role-grant failures and persistence, counterexample -/

/-- C7 fails as stated: both users 1 and 2 are computed winners, but
when granting the role to user 1 raises, the loop aborts — user 1's row
is persisted (and not rolled back), while user 2 is never persisted, so
full-set persistence does depend on the grants succeeding. -/
theorem grant_failure_blocks_persistence_cex :
    computeWinners guildOff12 2 takeSample stateAlways12 = [1, 2]
    ∧ (pick guildOff12 "A" 2 takeSample id (fun u => !(u == 1))
        stateAlways12).2 = PickResult.grantFailed [1]
    ∧ ("A", 1) ∈ (pick guildOff12 "A" 2 takeSample id (fun u => !(u == 1))
        stateAlways12).1.db.raffle_winners
    ∧ ("A", 2) ∉ (pick guildOff12 "A" 2 takeSample id (fun u => !(u == 1))
        stateAlways12).1.db.raffle_winners := by decide

/-! ### Winner-record lemmas (shared by C5 and C7) -/

theorem persistWinner_rw (raffle : String) (w : Nat) (s : State) :
    (persistWinner raffle w s).db.raffle_winners
      = if (raffle, w) ∈ s.db.raffle_winners then s.db.raffle_winners
        else s.db.raffle_winners ++ [(raffle, w)] := rfl

theorem mem_persistWinner_rw_self (raffle : String) (w : Nat) (s : State) :
    (raffle, w) ∈ (persistWinner raffle w s).db.raffle_winners := by
  rw [persistWinner_rw]
  split
  · assumption
  · exact List.mem_append_right _ (List.mem_singleton.mpr rfl)

theorem mem_persistWinner_rw_mono {r : String × Nat} (raffle : String)
    (w : Nat) (s : State) (h : r ∈ s.db.raffle_winners) :
    r ∈ (persistWinner raffle w s).db.raffle_winners := by
  rw [persistWinner_rw]
  split
  · exact h
  · exact List.mem_append_left _ h

theorem mem_persistWinner_rw_cases {r : String × Nat} (raffle : String)
    (w : Nat) (s : State)
    (h : r ∈ (persistWinner raffle w s).db.raffle_winners) :
    r ∈ s.db.raffle_winners ∨ r = (raffle, w) := by
  rw [persistWinner_rw] at h
  split at h
  · exact .inl h
  · rcases List.mem_append.mp h with h1 | h1
    · exact .inl h1
    · exact .inr (List.mem_singleton.mp h1)

theorem persistWinner_rw_nodup (raffle : String) (w : Nat) (s : State)
    (h : s.db.raffle_winners.Nodup) :
    (persistWinner raffle w s).db.raffle_winners.Nodup := by
  rw [persistWinner_rw]
  split
  · exact h
  · rename_i hnm
    rw [List.nodup_append]
    exact ⟨h, List.nodup_singleton _, by
      intro r hr hmem
      rw [List.mem_singleton] at hmem
      subst hmem
      exact hnm hr⟩

theorem pickLoop_rw_mono (raffle : String) (grant : Nat → Bool)
    (l : List Nat) :
    ∀ (s : State) (r : String × Nat), r ∈ s.db.raffle_winners →
      r ∈ (pickLoop raffle grant l s).1.db.raffle_winners := by
  induction l with
  | nil => intro s r h; exact h
  | cons w rest ih =>
    intro s r h
    rw [pickLoop]
    split
    · exact ih _ r (mem_persistWinner_rw_mono _ _ _ h)
    · exact mem_persistWinner_rw_mono _ _ _ h

theorem pickLoop_rw_nodup (raffle : String) (grant : Nat → Bool)
    (l : List Nat) :
    ∀ (s : State), s.db.raffle_winners.Nodup →
      (pickLoop raffle grant l s).1.db.raffle_winners.Nodup := by
  induction l with
  | nil => intro s h; exact h
  | cons w rest ih =>
    intro s h
    rw [pickLoop]
    split
    · exact ih _ (persistWinner_rw_nodup _ _ _ h)
    · exact persistWinner_rw_nodup _ _ _ h

theorem pick_rw_mono (g : Guild) (raffle : String) (n : Int)
    (sample : List Nat → Nat → List Nat) (shuffle : List Nat → List Nat)
    (grant : Nat → Bool) (s : State) (r : String × Nat)
    (h : r ∈ s.db.raffle_winners) :
    r ∈ (pick g raffle n sample shuffle grant s).1.db.raffle_winners := by
  simp only [pick]
  split
  · exact h
  · exact pickLoop_rw_mono _ _ _ _ r h

theorem pick_rw_nodup (g : Guild) (raffle : String) (n : Int)
    (sample : List Nat → Nat → List Nat) (shuffle : List Nat → List Nat)
    (grant : Nat → Bool) (s : State)
    (h : s.db.raffle_winners.Nodup) :
    (pick g raffle n sample shuffle grant s).1.db.raffle_winners.Nodup := by
  simp only [pick]
  split
  · exact h
  · exact pickLoop_rw_nodup _ _ _ _ h

/-! ### C5: winner-record immutability, amended -/

/-- C5 amended: a winner record is unique per (raffle, user) pair
(uniqueness of the record list is preserved by every draw) and no draw
ever deletes or modifies an existing record; however the record is not
immutable under every operation — `unregister` deletes exactly the
target user's winner records. -/
theorem winner_records_amended :
    (∀ (g : Guild) (raffle : String) (n : Int)
        (sample : List Nat → Nat → List Nat) (shuffle : List Nat → List Nat)
        (grant : Nat → Bool) (s : State) (r : String × Nat),
        r ∈ s.db.raffle_winners →
        r ∈ (pick g raffle n sample shuffle grant s).1.db.raffle_winners)
    ∧ (∀ (g : Guild) (raffle : String) (n : Int)
        (sample : List Nat → Nat → List Nat) (shuffle : List Nat → List Nat)
        (grant : Nat → Bool) (s : State),
        s.db.raffle_winners.Nodup →
        (pick g raffle n sample shuffle grant s).1.db.raffle_winners.Nodup)
    ∧ (∀ (s : State) (uid : Nat), (s.db.users.lookup uid).isSome →
        (unregister uid s).db.raffle_winners
          = s.db.raffle_winners.filter (fun e => !(e.2 == uid))) := by
  refine ⟨fun g raffle n sample shuffle grant s r h =>
      pick_rw_mono g raffle n sample shuffle grant s r h,
    fun g raffle n sample shuffle grant s h =>
      pick_rw_nodup g raffle n sample shuffle grant s h,
    fun s uid h => ?_⟩
  rw [unregister, if_pos h]

theorem winner_records_amended_witness :
    ("A", 1) ∈ (pick guildOn1 "B" 1 takeSample id grantAll
        stateWinA1).1.db.raffle_winners
    ∧ (pick guildOn1 "B" 1 takeSample id grantAll
        stateWinA1).1.db.raffle_winners.Nodup
    ∧ (unregister 1 stateWinA1).db.raffle_winners
        = stateWinA1.db.raffle_winners.filter (fun e => !(e.2 == 1)) :=
  ⟨winner_records_amended.1 guildOn1 "B" 1 takeSample id grantAll
      stateWinA1 ("A", 1) (by decide),
   winner_records_amended.2.1 guildOn1 "B" 1 takeSample id grantAll
      stateWinA1 (by decide),
   winner_records_amended.2.2 stateWinA1 1 (by decide)⟩

/-! ### C7: role-grant failures, amended -/

theorem persistAll_nil (raffle : String) (s : State) :
    persistAll raffle [] s = s := rfl

theorem persistAll_cons (raffle : String) (w : Nat) (l : List Nat)
    (s : State) :
    persistAll raffle (w :: l) s
      = persistAll raffle l (persistWinner raffle w s) := rfl

theorem persistAll_rw_mono (raffle : String) (l : List Nat) :
    ∀ (s : State) (r : String × Nat), r ∈ s.db.raffle_winners →
      r ∈ (persistAll raffle l s).db.raffle_winners := by
  induction l with
  | nil => intro s r h; exact h
  | cons w rest ih =>
    intro s r h
    rw [persistAll_cons]
    exact ih _ r (mem_persistWinner_rw_mono _ _ _ h)

theorem persistAll_rw_self (raffle : String) (l : List Nat) :
    ∀ (s : State) (x : Nat), x ∈ l →
      (raffle, x) ∈ (persistAll raffle l s).db.raffle_winners := by
  induction l with
  | nil => intro s x h; simp at h
  | cons w rest ih =>
    intro s x h
    rw [persistAll_cons]
    rcases List.mem_cons.mp h with h1 | h1
    · subst h1
      exact persistAll_rw_mono raffle rest _ _ (mem_persistWinner_rw_self _ _ _)
    · exact ih _ x h1

theorem persistAll_rw_cases (raffle : String) (l : List Nat) :
    ∀ (s : State) (r : String × Nat),
      r ∈ (persistAll raffle l s).db.raffle_winners →
      r ∈ s.db.raffle_winners ∨ (r.1 = raffle ∧ r.2 ∈ l) := by
  induction l with
  | nil => intro s r h; exact .inl h
  | cons w rest ih =>
    intro s r h
    rw [persistAll_cons] at h
    rcases ih _ r h with h1 | h1
    · rcases mem_persistWinner_rw_cases _ _ _ h1 with h2 | h2
      · exact .inl h2
      · subst h2
        exact .inr ⟨rfl, List.mem_cons_self _ _⟩
    · exact .inr ⟨h1.1, List.mem_cons_of_mem _ h1.2⟩

theorem pickLoop_stop (raffle : String) (grant : Nat → Bool)
    (l1 : List Nat) :
    ∀ (f : Nat) (l2 : List Nat) (s : State),
      (∀ x ∈ l1, grant x = true) → grant f = false →
      pickLoop raffle grant (l1 ++ f :: l2) s
        = (persistAll raffle (l1 ++ [f]) s, l1 ++ [f], false) := by
  induction l1 with
  | nil =>
    intro f l2 s _ hf
    rw [List.nil_append, pickLoop]
    simp [hf, persistAll_cons, persistAll_nil]
  | cons x t ih =>
    intro f l2 s hall hf
    have hx : grant x = true := hall x (List.mem_cons_self _ _)
    rw [List.cons_append, pickLoop]
    simp only [hx, if_true]
    rw [ih f l2 (persistWinner raffle x s)
      (fun y hy => hall y (List.mem_cons_of_mem _ hy)) hf]
    rw [List.cons_append, persistAll_cons]

/-- C7 amended: the selection state persisted before a failing role
grant is committed and never rolled back — every winner up to and
including the one whose grant fails has its winner record written — but
a grant failure raises out of the loop, so the winners after the failing
one are not persisted at all: persisting the full winner set does depend
on every grant (except the last winner's) succeeding. -/
theorem pick_grant_failure_amended (raffle : String) (grant : Nat → Bool)
    (l1 : List Nat) (f : Nat) (l2 : List Nat) (s : State)
    (hall : ∀ x ∈ l1, grant x = true) (hf : grant f = false) :
    pickLoop raffle grant (l1 ++ f :: l2) s
      = (persistAll raffle (l1 ++ [f]) s, l1 ++ [f], false)
    ∧ (∀ x ∈ l1 ++ [f],
        (raffle, x) ∈ (persistAll raffle (l1 ++ [f]) s).db.raffle_winners)
    ∧ (∀ r ∈ s.db.raffle_winners,
        r ∈ (persistAll raffle (l1 ++ [f]) s).db.raffle_winners)
    ∧ (∀ x : Nat,
        (raffle, x) ∈ (persistAll raffle (l1 ++ [f]) s).db.raffle_winners →
        (raffle, x) ∈ s.db.raffle_winners ∨ x ∈ l1 ++ [f]) := by
  refine ⟨pickLoop_stop raffle grant l1 f l2 s hall hf,
    fun x hx => persistAll_rw_self raffle (l1 ++ [f]) s x hx,
    fun r hr => persistAll_rw_mono raffle (l1 ++ [f]) s r hr,
    fun x hx => ?_⟩
  rcases persistAll_rw_cases raffle (l1 ++ [f]) s (raffle, x) hx with h | h
  · exact .inl h
  · exact .inr h.2

theorem pick_grant_failure_amended_witness :
    pickLoop "A" (fun u => !(u == 1)) [1, 2] stateAlways12
      = (persistAll "A" [1] stateAlways12, [1], false)
    ∧ ("A", 1) ∈ (persistAll "A" [1] stateAlways12).db.raffle_winners
    ∧ (("A", 2) ∈ (persistAll "A" [1] stateAlways12).db.raffle_winners →
        ("A", 2) ∈ stateAlways12.db.raffle_winners ∨ (2 : Nat) ∈ [1]) :=
  have h := pick_grant_failure_amended "A" (fun u => !(u == 1)) [] 1 [2]
    stateAlways12 (by simp) (by decide)
  ⟨h.1, h.2.1 1 (by decide), fun hm => h.2.2.2 2 hm⟩

/-! ### C6: archive tick failure isolation, amended -/

theorem archiveLoop_stop (fail : String → Bool) (l1 : List String) :
    ∀ (f : String) (l2 : List String) (s : State),
      (∀ x ∈ l1, fail x = false) → fail f = true →
      archiveLoop fail (l1 ++ f :: l2) s = archiveLoop (fun _ => false) l1 s := by
  induction l1 with
  | nil =>
    intro f l2 s _ hf
    rw [List.nil_append, archiveLoop, archiveLoop]
    simp [hf]
  | cons x t ih =>
    intro f l2 s hall hf
    have hx : fail x = false := hall x (List.mem_cons_self _ _)
    rw [List.cons_append, archiveLoop, archiveLoop]
    simp only [hx, if_neg (by simp : ¬ (false = true)),
      if_neg (by simp : ¬ ((fun _ => false) x = true))]
    exact ih f l2 _ (fun y hy => hall y (List.mem_cons_of_mem _ hy)) hf

theorem archiveLoop_schedule_lookup (l : List String) :
    ∀ (s : State) (n : String),
      (archiveLoop (fun _ => false) l s).db.archive_schedule.lookup n
        = if n ∈ l then none else s.db.archive_schedule.lookup n := by
  induction l with
  | nil => intro s n; simp [archiveLoop]
  | cons m t ih =>
    intro s n
    rw [archiveLoop, if_neg (by simp : ¬ ((fun _ => false) m = true)), ih]
    dsimp only
    by_cases h2 : n = m
    · subst h2
      have hstep : (db_archive_raffle n s.db).archive_schedule.lookup n = none := by
        show (s.db.archive_schedule.filter (fun e => !(e.1 == n))).lookup n = none
        rw [lookup_filterKey, if_pos rfl]
      by_cases h1 : n ∈ t
      · simp only [if_pos h1, if_pos (List.mem_cons_self n t)]
      · simp only [if_neg h1, if_pos (List.mem_cons_self n t), hstep]
    · have hstep : (db_archive_raffle m s.db).archive_schedule.lookup n
          = s.db.archive_schedule.lookup n := by
        show (s.db.archive_schedule.filter (fun e => !(e.1 == m))).lookup n
          = s.db.archive_schedule.lookup n
        rw [lookup_filterKey, if_neg h2]
      by_cases h1 : n ∈ t
      · simp only [if_pos h1, if_pos (List.mem_cons_of_mem m h1)]
      · simp only [if_neg h1, hstep,
          if_neg (fun hc => (List.mem_cons.mp hc).elim h2 h1)]

theorem archiveLoop_cache_lookup (l : List String) :
    ∀ (s : State) (n : String),
      (archiveLoop (fun _ => false) l s).cache.raffles.lookup n
        = if n ∈ l then none else s.cache.raffles.lookup n := by
  induction l with
  | nil => intro s n; simp [archiveLoop]
  | cons m t ih =>
    intro s n
    rw [archiveLoop, if_neg (by simp : ¬ ((fun _ => false) m = true)), ih]
    dsimp only
    by_cases h2 : n = m
    · subst h2
      have hstep : (evictRaffle n s.cache).raffles.lookup n = none := by
        show (s.cache.raffles.filter (fun e => !(e.1 == n))).lookup n = none
        rw [lookup_filterKey, if_pos rfl]
      by_cases h1 : n ∈ t
      · simp only [if_pos h1, if_pos (List.mem_cons_self n t)]
      · simp only [if_neg h1, if_pos (List.mem_cons_self n t), hstep]
    · have hstep : (evictRaffle m s.cache).raffles.lookup n
          = s.cache.raffles.lookup n := by
        show (s.cache.raffles.filter (fun e => !(e.1 == m))).lookup n
          = s.cache.raffles.lookup n
        rw [lookup_filterKey, if_neg h2]
      by_cases h1 : n ∈ t
      · simp only [if_pos h1, if_pos (List.mem_cons_of_mem m h1)]
      · simp only [if_neg h1, hstep,
          if_neg (fun hc => (List.mem_cons.mp hc).elim h2 h1)]

theorem archiveLoop_raffles_lookup (l : List String) :
    ∀ (s : State) (n : String),
      (archiveLoop (fun _ => false) l s).db.raffles.lookup n
        = if n ∈ l then (s.db.raffles.lookup n).map (fun _ => true)
          else s.db.raffles.lookup n := by
  induction l with
  | nil => intro s n; simp [archiveLoop]
  | cons m t ih =>
    intro s n
    rw [archiveLoop, if_neg (by simp : ¬ ((fun _ => false) m = true)), ih]
    dsimp only
    by_cases h2 : n = m
    · subst h2
      have hstep : (db_archive_raffle n s.db).raffles.lookup n
          = (s.db.raffles.lookup n).map (fun _ => true) := by
        show (updateA n (fun _ => true) s.db.raffles).lookup n
          = (s.db.raffles.lookup n).map (fun _ => true)
        rw [lookup_updateA, if_pos rfl]
      by_cases h1 : n ∈ t
      · simp only [if_pos h1, if_pos (List.mem_cons_self n t), hstep,
          Option.map_map]
        rfl
      · simp only [if_neg h1, if_pos (List.mem_cons_self n t), hstep]
    · have hstep : (db_archive_raffle m s.db).raffles.lookup n
          = s.db.raffles.lookup n := by
        show (updateA m (fun _ => true) s.db.raffles).lookup n
          = s.db.raffles.lookup n
        rw [lookup_updateA, if_neg h2]
      by_cases h1 : n ∈ t
      · simp only [if_pos h1, if_pos (List.mem_cons_of_mem m h1), hstep]
      · simp only [if_neg h1, hstep,
          if_neg (fun hc => (List.mem_cons.mp hc).elim h2 h1)]

/-- C6 amended: a failure while archiving one due entry does not leave
the earlier entries of the tick unprocessed, but it does abort the rest
of the tick: the loop equals a run over only the prefix before the
failure, every name in that prefix is archived, descheduled and evicted,
and every name not processed keeps its schedule row and raffle state —
so the failing entry and all later due entries are retried on the next
tick rather than processed in this one. -/
theorem archive_tick_failure_amended :
    (∀ (fail : String → Bool) (l1 : List String) (f : String)
        (l2 : List String) (s : State),
        (∀ x ∈ l1, fail x = false) → fail f = true →
        archiveLoop fail (l1 ++ f :: l2) s = archiveLoop (fun _ => false) l1 s)
    ∧ (∀ (l : List String) (s : State) (n : String), n ∈ l →
        (archiveLoop (fun _ => false) l s).db.archive_schedule.lookup n = none
        ∧ (archiveLoop (fun _ => false) l s).cache.raffles.lookup n = none
        ∧ (archiveLoop (fun _ => false) l s).db.raffles.lookup n
            = (s.db.raffles.lookup n).map (fun _ => true))
    ∧ (∀ (l : List String) (s : State) (n : String), n ∉ l →
        (archiveLoop (fun _ => false) l s).db.archive_schedule.lookup n
            = s.db.archive_schedule.lookup n
        ∧ (archiveLoop (fun _ => false) l s).db.raffles.lookup n
            = s.db.raffles.lookup n) := by
  refine ⟨fun fail l1 f l2 s h1 h2 => archiveLoop_stop fail l1 f l2 s h1 h2,
    fun l s n hn => ⟨?_, ?_, ?_⟩, fun l s n hn => ⟨?_, ?_⟩⟩
  · rw [archiveLoop_schedule_lookup, if_pos hn]
  · rw [archiveLoop_cache_lookup, if_pos hn]
  · rw [archiveLoop_raffles_lookup, if_pos hn]
  · rw [archiveLoop_schedule_lookup, if_neg hn]
  · rw [archiveLoop_raffles_lookup, if_neg hn]

theorem archive_tick_failure_amended_witness :
    archiveLoop (fun m => m == "B") ["A", "B"] stateDueAB
      = archiveLoop (fun _ => false) ["A"] stateDueAB
    ∧ (archiveLoop (fun _ => false) ["A"]
        stateDueAB).db.archive_schedule.lookup "A" = none
    ∧ (archiveLoop (fun _ => false) ["A"] stateDueAB).db.raffles.lookup "A"
        = (stateDueAB.db.raffles.lookup "A").map (fun _ => true)
    ∧ (archiveLoop (fun _ => false) ["A"]
        stateDueAB).db.archive_schedule.lookup "B"
        = stateDueAB.db.archive_schedule.lookup "B" :=
  have h := archive_tick_failure_amended
  have h2 := h.2.1 ["A"] stateDueAB "A" (by decide)
  have h3 := h.2.2 ["A"] stateDueAB "B" (by decide)
  ⟨h.1 (fun m => m == "B") ["A"] "B" [] stateDueAB (by decide) (by decide),
   h2.1, h2.2.2, h3.1⟩

/-! ### C4: cache/store raffle consistency, amended -/

theorem lookup_pairs_of_names (ns : List String) (n : String) :
    (((ns.map (fun m => (m, ([] : List Nat))))).lookup n).isSome ↔ n ∈ ns := by
  induction ns with
  | nil => simp [List.lookup]
  | cons x t ih =>
    rw [List.map_cons, lookup_cons]
    by_cases h : n = x
    · simp [h]
    · rw [if_neg h]
      simp [h, ih]

theorem load_fold_keys (active : List String) (js : List (String × Nat)) :
    ∀ (acc : List (String × List Nat)),
      (∀ e ∈ js, e.1 ∈ active) →
      (∀ m, (acc.lookup m).isSome ↔ m ∈ active) →
      ∀ m, ((js.foldl (fun acc e =>
          if (acc.lookup e.1).isSome then updateA e.1 (fun l => l ++ [e.2]) acc
          else acc ++ [(e.1, [e.2])]) acc).lookup m).isSome ↔ m ∈ active := by
  induction js with
  | nil => intro acc _ hacc m; exact hacc m
  | cons e t ih =>
    intro acc hall hacc m
    rw [List.foldl_cons]
    have he : (acc.lookup e.1).isSome :=
      (hacc e.1).mpr (hall e (List.mem_cons_self _ _))
    rw [if_pos he]
    refine ih _ (fun x hx => hall x (List.mem_cons_of_mem _ hx)) ?_ m
    intro m'
    rw [lookup_updateA]
    by_cases hm : m' = e.1
    · rw [if_pos hm, hm]
      have hmap : ((acc.lookup e.1).map (fun l => l ++ [e.2])).isSome
          = (acc.lookup e.1).isSome := by
        cases acc.lookup e.1 <;> rfl
      rw [hmap]
      exact hacc e.1
    · rw [if_neg hm]
      exact hacc m'

theorem active_of_lookup_false {db : Store} {n : String}
    (h : db.raffles.lookup n = some false) :
    n ∈ (db.raffles.filter (fun e => e.2 == false)).map Prod.fst := by
  refine List.mem_map.mpr ⟨(n, false), List.mem_filter.mpr
    ⟨mem_of_lookup_eq_some h, by simp⟩, rfl⟩

theorem lookup_false_of_active {db : Store} {n : String}
    (hn : (db.raffles.map Prod.fst).Nodup)
    (h : n ∈ (db.raffles.filter (fun e => e.2 == false)).map Prod.fst) :
    db.raffles.lookup n = some false := by
  rcases List.mem_map.mp h with ⟨e, hef, he1⟩
  rcases List.mem_filter.mp hef with ⟨hmem, hflag⟩
  have : e = (n, false) := by
    rcases e with ⟨a, b⟩
    cases he1
    simp at hflag
    rw [hflag]
  subst this
  exact lookup_eq_some_of_mem_nodup hn hmem

theorem load_establishes_inv (db : Store)
    (hn : (db.raffles.map Prod.fst).Nodup) :
    CacheStoreRaffleInv { cache := load_state_from_db db, db := db } := by
  intro name
  have hkeys : ∀ m, (((load_state_from_db db).raffles).lookup m).isSome
      ↔ m ∈ (db.raffles.filter (fun e => e.2 == false)).map Prod.fst := by
    intro m
    refine load_fold_keys _ _ _ ?_ ?_ m
    · intro e he
      have hp := (List.mem_filter.mp he).2
      have : db.raffles.lookup e.1 = some false := by
        simpa using hp
      exact active_of_lookup_false this
    · intro m'
      exact lookup_pairs_of_names _ m'
  show ((load_state_from_db db).raffles.lookup name).isSome
      ↔ db.raffles.lookup name = some false
  rw [hkeys name]
  constructor
  · exact lookup_false_of_active hn
  · exact active_of_lookup_false

theorem archiveStep_inv (n : String) (s : State)
    (h : CacheStoreRaffleInv s) :
    CacheStoreRaffleInv
      { cache := evictRaffle n s.cache, db := db_archive_raffle n s.db } := by
  intro m
  show ((s.cache.raffles.filter (fun e => !(e.1 == n))).lookup m).isSome
      ↔ (updateA n (fun _ => true) s.db.raffles).lookup m = some false
  rw [lookup_filterKey, lookup_updateA]
  by_cases hm : m = n
  · rw [if_pos hm, if_pos hm]
    cases hx : s.db.raffles.lookup n <;> simp [hx]
  · rw [if_neg hm, if_neg hm]
    exact h m

theorem archiveLoop_inv (fail : String → Bool) (l : List String) :
    ∀ (s : State), CacheStoreRaffleInv s →
      CacheStoreRaffleInv (archiveLoop fail l s) := by
  induction l with
  | nil => intro s h; exact h
  | cons n t ih =>
    intro s h
    rw [archiveLoop]
    split
    · exact h
    · exact ih _ (archiveStep_inv n s h)

theorem archive_tick_inv (fail : String → Bool) (now : Nat) (s : State)
    (h : CacheStoreRaffleInv s) :
    CacheStoreRaffleInv (archive_watcher_tick fail now s) := by
  rw [archive_watcher_tick]
  split
  · exact h
  · exact archiveLoop_inv fail _ s h

theorem persistWinner_inv (raffle : String) (w : Nat) (s : State)
    (h : CacheStoreRaffleInv s) :
    CacheStoreRaffleInv (persistWinner raffle w s) := by
  intro m
  show ((updateA raffle (fun l => l ++ [w]) s.cache.raffles).lookup m).isSome
      ↔ s.db.raffles.lookup m = some false
  rw [lookup_updateA]
  by_cases hm : m = raffle
  · rw [if_pos hm]
    subst hm
    have := h m
    cases hx : s.cache.raffles.lookup m <;> rw [hx] at this <;> simp [hx] <;>
      simpa using this
  · rw [if_neg hm]
    exact h m

theorem pickLoop_inv (raffle : String) (grant : Nat → Bool) (l : List Nat) :
    ∀ (s : State), CacheStoreRaffleInv s →
      CacheStoreRaffleInv (pickLoop raffle grant l s).1 := by
  induction l with
  | nil => intro s h; exact h
  | cons w rest ih =>
    intro s h
    rw [pickLoop]
    split
    · exact ih _ (persistWinner_inv raffle w s h)
    · exact persistWinner_inv raffle w s h

theorem pick_inv (g : Guild) (raffle : String) (n : Int)
    (sample : List Nat → Nat → List Nat) (shuffle : List Nat → List Nat)
    (grant : Nat → Bool) (s : State)
    (h : CacheStoreRaffleInv s)
    (hna : s.db.raffles.lookup raffle ≠ some true) :
    CacheStoreRaffleInv (pick g raffle n sample shuffle grant s).1 := by
  simp only [pick]
  split
  · exact h
  · apply pickLoop_inv
    intro m
    show ((insertIfAbsent raffle [] s.cache.raffles).lookup m).isSome
        ↔ (insertIfAbsent raffle false s.db.raffles).lookup m = some false
    rw [lookup_insertIfAbsent, lookup_insertIfAbsent]
    by_cases hm : m = raffle
    · rw [if_pos hm, if_pos hm]
      cases hx : s.db.raffles.lookup raffle with
      | none => simp [hx]
      | some b =>
        cases b
        · simp [hx]
        · exact absurd hx hna
    · rw [if_neg hm, if_neg hm]
      exact h m

/-- C4 amended: the cache-iff-unarchived-row invariant is established by
the startup rebuild (for a store whose raffle names are unique, as the
primary key guarantees), preserved by every archive-scheduler tick, and
preserved by every draw whose raffle name is not already archived in the
store; it is not preserved by a draw under an archived name — such a draw
re-inserts the name into the cache while the store row stays archived
(see the counterexample). -/
theorem cache_store_raffle_consistency_amended :
    (∀ db : Store, (db.raffles.map Prod.fst).Nodup →
        CacheStoreRaffleInv { cache := load_state_from_db db, db := db })
    ∧ (∀ (fail : String → Bool) (now : Nat) (s : State),
        CacheStoreRaffleInv s →
        CacheStoreRaffleInv (archive_watcher_tick fail now s))
    ∧ (∀ (g : Guild) (raffle : String) (n : Int)
        (sample : List Nat → Nat → List Nat)
        (shuffle : List Nat → List Nat) (grant : Nat → Bool) (s : State),
        CacheStoreRaffleInv s →
        s.db.raffles.lookup raffle ≠ some true →
        CacheStoreRaffleInv (pick g raffle n sample shuffle grant s).1) :=
  ⟨load_establishes_inv,
   archive_tick_inv,
   fun g raffle n sample shuffle grant s h hna =>
     pick_inv g raffle n sample shuffle grant s h hna⟩

theorem cache_store_raffle_consistency_amended_witness :
    CacheStoreRaffleInv stateWinA1
    ∧ CacheStoreRaffleInv (archive_watcher_tick (fun _ => false) 5 stateWinA1)
    ∧ CacheStoreRaffleInv
        (pick guildOn1 "A" 1 takeSample id grantAll stateWinA1).1 :=
  have h1 : CacheStoreRaffleInv stateWinA1 :=
    cache_store_raffle_consistency_amended.1 storeWinA1 (by decide)
  ⟨h1,
   cache_store_raffle_consistency_amended.2.1 (fun _ => false) 5 stateWinA1 h1,
   cache_store_raffle_consistency_amended.2.2 guildOn1 "A" 1 takeSample id
     grantAll stateWinA1 h1 (by decide)⟩

/-! ### C10: registrations never exceed 1 -/

theorem db_update_stat_stats_lookup (uid : Nat) (dreg dwins : Int)
    (db : Store) (u : Nat) :
    (db_update_stat uid dreg dwins db).stats.lookup u
      = if u = uid then
          some ⟨((db.stats.lookup uid).getD ⟨0, 0⟩).registrations + dreg,
                ((db.stats.lookup uid).getD ⟨0, 0⟩).wins + dwins⟩
        else db.stats.lookup u := by
  have hsome : ((insertIfAbsent uid (⟨0, 0⟩ : Stat) db.stats).lookup uid).isSome := by
    rw [lookup_insertIfAbsent, if_pos rfl]
    rfl
  show (if ((insertIfAbsent uid (⟨0, 0⟩ : Stat) db.stats).lookup uid).isSome then
      updateA uid (fun st => ⟨st.registrations + dreg, st.wins + dwins⟩)
        (insertIfAbsent uid ⟨0, 0⟩ db.stats)
    else insertIfAbsent uid ⟨0, 0⟩ db.stats
      ++ [(uid, ⟨max dreg 0, max dwins 0⟩)]).lookup u = _
  rw [if_pos hsome, lookup_updateA]
  by_cases hu : u = uid
  · rw [if_pos hu, if_pos hu, lookup_insertIfAbsent, if_pos rfl]
    rfl
  · rw [if_neg hu, if_neg hu, lookup_insertIfAbsent, if_neg hu]

theorem db_update_stat_users_lookup (uid : Nat) (dreg dwins : Int)
    (db : Store) (u : Nat) :
    (db_update_stat uid dreg dwins db).users.lookup u
      = if u = uid then some "" else db.users.lookup u := by
  show (upsertA uid "" db.users).lookup u = _
  exact lookup_upsertA uid u "" db.users

theorem persistWinner_links (raffle : String) (w : Nat) (s : State) :
    (persistWinner raffle w s).cache.user_links = s.cache.user_links := rfl

theorem persistWinner_db_stats_lookup (raffle : String) (w : Nat)
    (s : State) (u : Nat) :
    (persistWinner raffle w s).db.stats.lookup u
      = if u = w then
          some ⟨((s.db.stats.lookup w).getD ⟨0, 0⟩).registrations + 0,
                ((s.db.stats.lookup w).getD ⟨0, 0⟩).wins + 1⟩
        else s.db.stats.lookup u :=
  db_update_stat_stats_lookup w 0 1
    (db_set_picked w (db_add_winner raffle w s.db)) u

theorem persistWinner_cache_stats_lookup (raffle : String) (w : Nat)
    (s : State) (u : Nat) :
    (persistWinner raffle w s).cache.user_stats.lookup u
      = if u = w then
          some ⟨((s.cache.user_stats.lookup w).getD ⟨0, 0⟩).registrations,
                ((s.cache.user_stats.lookup w).getD ⟨0, 0⟩).wins + 1⟩
        else s.cache.user_stats.lookup u := by
  show (updateA w (fun st => ⟨st.registrations, st.wins + 1⟩)
      (insertIfAbsent w ⟨0, 0⟩ s.cache.user_stats)).lookup u = _
  rw [lookup_updateA]
  by_cases hu : u = w
  · rw [if_pos hu, if_pos hu, lookup_insertIfAbsent, if_pos rfl]
    rfl
  · rw [if_neg hu, if_neg hu, lookup_insertIfAbsent, if_neg hu]

theorem persistWinner_RegBound (raffle : String) (w : Nat) (s : State)
    (h : RegBound s) : RegBound (persistWinner raffle w s) := by
  obtain ⟨hdb, hc⟩ := h
  constructor
  · intro u st hst
    rw [persistWinner_db_stats_lookup] at hst
    rw [show (persistWinner raffle w s).cache.user_links
      = s.cache.user_links from rfl]
    by_cases hu : u = w
    · rw [if_pos hu] at hst
      subst hu
      cases hst
      cases hx : s.db.stats.lookup u with
      | none => simp
      | some st0 =>
        have h0 := hdb u st0 hx
        simp only [hx, Option.getD_some]
        exact ⟨by rcases h0.1 with h | h <;> simp [h], fun hr => h0.2 (by
          simpa using hr)⟩
    · rw [if_neg hu] at hst
      exact hdb u st hst
  · intro u st hst
    rw [persistWinner_cache_stats_lookup] at hst
    rw [show (persistWinner raffle w s).cache.user_links
      = s.cache.user_links from rfl]
    by_cases hu : u = w
    · rw [if_pos hu] at hst
      subst hu
      cases hst
      cases hx : s.cache.user_stats.lookup u with
      | none => simp
      | some st0 =>
        have h0 := hc u st0 hx
        simp only [hx, Option.getD_some]
        exact h0
    · rw [if_neg hu] at hst
      exact hc u st hst

theorem register_RegBound (uid : Nat) (link : String) (s : State)
    (h : RegBound s) : RegBound (register uid link s) := by
  obtain ⟨hdb, hc⟩ := h
  rw [register]
  split
  · exact ⟨hdb, hc⟩
  split
  · exact ⟨hdb, hc⟩
  split
  · exact ⟨hdb, hc⟩
  split
  · exact ⟨hdb, hc⟩
  rename_i hmiss hblack
  show RegBound
    { cache := { s.cache with
        user_links := upsertA uid link s.cache.user_links,
        user_stats := updateA uid (fun st => ⟨st.registrations + 1, st.wins⟩)
          (insertIfAbsent uid ⟨0, 0⟩ s.cache.user_stats) },
      db := db_update_stat uid 1 0 (db_upsert_user uid link s.db) }
  have hinner : (db_upsert_user uid link s.db).stats.lookup uid
      = some ((s.db.stats.lookup uid).getD ⟨0, 0⟩) := by
    show (insertIfAbsent uid (⟨0, 0⟩ : Stat) s.db.stats).lookup uid = _
    rw [lookup_insertIfAbsent, if_pos rfl]
  have hreg0 : ((s.db.stats.lookup uid).getD ⟨0, 0⟩).registrations = 0 := by
    cases hx : s.db.stats.lookup uid with
    | none => rfl
    | some st0 =>
      have h0 := hdb uid st0 hx
      rcases h0.1 with h1 | h1
      · simpa using h1
      · exact absurd (h0.2 h1) hmiss
  have hcreg0 : ((s.cache.user_stats.lookup uid).getD ⟨0, 0⟩).registrations = 0 := by
    cases hx : s.cache.user_stats.lookup uid with
    | none => rfl
    | some st0 =>
      have h0 := hc uid st0 hx
      rcases h0.1 with h1 | h1
      · simpa using h1
      · exact absurd (h0.2 h1) hmiss
  constructor
  · intro u st hst
    dsimp only at hst ⊢
    rw [db_update_stat_stats_lookup] at hst
    by_cases hu : u = uid
    · rw [if_pos hu] at hst
      subst hu
      cases hst
      rw [hinner]
      refine ⟨Or.inr (by simpa using hreg0), fun _ => ?_⟩
      rw [lookup_upsertA, if_pos rfl]
      rfl
    · rw [if_neg hu] at hst
      have hst' : s.db.stats.lookup u = some st := by
        have : (db_upsert_user uid link s.db).stats.lookup u
            = s.db.stats.lookup u := by
          show (insertIfAbsent uid (⟨0, 0⟩ : Stat) s.db.stats).lookup u = _
          rw [lookup_insertIfAbsent, if_neg hu]
        rw [this] at hst
        exact hst
      have h0 := hdb u st hst'
      refine ⟨h0.1, fun hr => ?_⟩
      rw [lookup_upsertA, if_neg hu]
      exact h0.2 hr
  · intro u st hst
    dsimp only at hst ⊢
    rw [lookup_updateA] at hst
    by_cases hu : u = uid
    · rw [if_pos hu] at hst
      subst hu
      rw [lookup_insertIfAbsent, if_pos rfl] at hst
      cases hst
      refine ⟨Or.inr (by simpa using hcreg0), fun _ => ?_⟩
      rw [lookup_upsertA, if_pos rfl]
      rfl
    · rw [if_neg hu, lookup_insertIfAbsent, if_neg hu] at hst
      have h0 := hc u st hst
      refine ⟨h0.1, fun hr => ?_⟩
      rw [lookup_upsertA, if_neg hu]
      exact h0.2 hr

theorem unregister_RegBound (uid : Nat) (s : State)
    (h : RegBound s) : RegBound (unregister uid s) := by
  obtain ⟨hdb, hc⟩ := h
  rw [unregister]
  split
  · constructor
    · intro u st hst
      dsimp only at hst ⊢
      rw [lookup_filterKey] at hst
      by_cases hu : u = uid
      · rw [if_pos hu] at hst
        cases hst
      · rw [if_neg hu] at hst
        have h0 := hdb u st hst
        refine ⟨h0.1, fun hr => ?_⟩
        rw [lookup_filterKey, if_neg hu]
        exact h0.2 hr
    · intro u st hst
      dsimp only at hst ⊢
      rw [lookup_filterKey] at hst
      by_cases hu : u = uid
      · rw [if_pos hu] at hst
        cases hst
      · rw [if_neg hu] at hst
        have h0 := hc u st hst
        refine ⟨h0.1, fun hr => ?_⟩
        rw [lookup_filterKey, if_neg hu]
        exact h0.2 hr
  · exact ⟨hdb, hc⟩

theorem pickLoop_RegBound (raffle : String) (grant : Nat → Bool)
    (l : List Nat) :
    ∀ (s : State), RegBound s → RegBound (pickLoop raffle grant l s).1 := by
  induction l with
  | nil => intro s h; exact h
  | cons w rest ih =>
    intro s h
    rw [pickLoop]
    split
    · exact ih _ (persistWinner_RegBound raffle w s h)
    · exact persistWinner_RegBound raffle w s h

theorem pick_RegBound (g : Guild) (raffle : String) (n : Int)
    (sample : List Nat → Nat → List Nat) (shuffle : List Nat → List Nat)
    (grant : Nat → Bool) (s : State)
    (h : RegBound s) : RegBound (pick g raffle n sample shuffle grant s).1 := by
  simp only [pick]
  split
  · exact h
  · exact pickLoop_RegBound raffle grant _ _ h

theorem applyOp_RegBound (s : State) (op : Op)
    (h : RegBound s) : RegBound (applyOp s op) := by
  cases op with
  | reg uid link => exact register_RegBound uid link s h
  | unreg uid => exact unregister_RegBound uid s h
  | draw g raffle n sample shuffle grant =>
      exact pick_RegBound g raffle n sample shuffle grant s h
  | resetPicks => exact h

theorem foldl_RegBound (ops : List Op) :
    ∀ (s : State), RegBound s → RegBound (ops.foldl applyOp s) := by
  induction ops with
  | nil => intro s h; exact h
  | cons op rest ih =>
    intro s h
    rw [List.foldl_cons]
    exact ih _ (applyOp_RegBound s op h)

theorem runOps_RegBound (ops : List Op) : RegBound (runOps ops) := by
  rw [runOps]
  refine foldl_RegBound ops initState ⟨?_, ?_⟩
  · intro u st hst
    simp [initState, List.lookup] at hst
  · intro u st hst
    simp [initState, List.lookup] at hst

/-- C10: after any sequence of register / unregister / draw / reset-picks
operations from a fresh deployment, every user's registrations counter —
in the durable stats table and in the cached user_stats dict alike — is
0 or 1: registration is rejected before mutation for an already
registered (or blacklisted) user, draws only ever add zero-registration
rows, and unregistering removes the row entirely. -/
theorem registrations_at_most_one (ops : List Op) (u : Nat) (st : Stat)
    (h : (runOps ops).db.stats.lookup u = some st
        ∨ (runOps ops).cache.user_stats.lookup u = some st) :
    st.registrations = 0 ∨ st.registrations = 1 := by
  rcases h with h | h
  · exact ((runOps_RegBound ops).1 u st h).1
  · exact ((runOps_RegBound ops).2 u st h).1

theorem registrations_at_most_one_witness :
    (runOps [Op.reg 1 "https://x.com/alice"]).db.stats.lookup 1
        = some ⟨1, 0⟩
    ∧ ((⟨1, 0⟩ : Stat).registrations = 0
        ∨ (⟨1, 0⟩ : Stat).registrations = 1) :=
  ⟨by decide,
   registrations_at_most_one [Op.reg 1 "https://x.com/alice"] 1 ⟨1, 0⟩
     (Or.inl (by decide))⟩
